import Mathlib

/-!
Verification of the channel-synchronization pipeline of the
youtube-trend-tracker repository against its specification.

The Go source is shallowly embedded: durations (`time.Duration`) are `Int`
nanoseconds, the float64 retry multiplier is an exact `Rat`, Go maps are
association lists with insert-or-replace semantics, and external
collaborators (the YouTube API and the BigQuery sink) are environments
passed in as functions.  Fallible Go functions return `Option`/`Except`.
-/

namespace YTT

/-- Error categories of `internal/errors` (`ErrorType` constants). -/
inductive ErrType where
  | config
  | api
  | storage
  | validation
  | temporary
  deriving DecidableEq, Repr

/-- Embedded Go `error` values that arise in the pipeline.
`nilErr` models Go's nil error appearing as a wrapped cause;
`app` models `*errors.AppError` (type, Retriable flag, wrapped cause);
`googleapi` models `*googleapi.Error` with its HTTP status code;
`ctxCanceled` models `ctx.Err()` (`context.Canceled`);
`exhausted` models the `fmt.Errorf("operation failed after %d attempts: %w", ...)`
wrap produced by the retry executor; `other` models any error carrying no
recognizable status code (network-level, decoding). -/
inductive Err where
  | nilErr
  | app (t : ErrType) (retriable : Bool) (cause : Err)
  | googleapi (code : Int)
  | ctxCanceled
  | exhausted (attempts : Nat) (last : Err)
  | other (tag : String)
  deriving DecidableEq, Repr

/-- `errors.New`: the `Retriable` field is `errType == ErrTypeTemporary`. -/
def errNew (t : ErrType) (cause : Err) : Err :=
  Err.app t (t = ErrType.temporary) cause

/-- `errors.API`. -/
def errAPI (cause : Err) : Err := errNew ErrType.api cause

/-- `errors.Storage`. -/
def errStorage (cause : Err) : Err := errNew ErrType.storage cause

/-- `errors.Temporary`: retriable is forced to `true`. -/
def errTemporary (cause : Err) : Err :=
  Err.app ErrType.temporary true cause

/-- The retriability check of `DoWithContext`: the error is returned
immediately (no retry) exactly when it is an `*errors.AppError` whose
`IsRetriable()` is false.  Every non-`AppError` error is retried. -/
def isNonRetriableApp : Err → Bool
  | Err.app _ r _ => !r
  | _ => false

/-- A Transient error in the sense of the spec: an `AppError` with the
`Retriable` flag set (produced by `errors.Temporary`). -/
def isTransient : Err → Bool
  | Err.app _ r _ => r
  | _ => false

/-- Retry configuration (`retry.Config`); delays are `int64` nanoseconds,
the float64 multiplier is modelled as an exact rational. -/
structure RetryConfig where
  maxAttempts : Nat
  initialDelay : Int
  maxDelay : Int
  multiplier : Rat
  deriving Repr

/-- `retry.DefaultConfig()`. -/
def DefaultConfig : RetryConfig :=
  { maxAttempts := 5
  , initialDelay := 1000000000
  , maxDelay := 30000000000
  , multiplier := 2 }

/-- The external world a `DoWithContext` run observes: the outcome of the
n-th invocation of the operation (`none` = success), and whether the
context is already cancelled at the check before attempt n
(`ctxAtStart`) or becomes cancelled during the backoff sleep that follows
attempt n (`ctxInSleep`). -/
structure RetryEnv where
  op : Nat → Option Err
  ctxAtStart : Nat → Bool
  ctxInSleep : Nat → Bool

/-- One run of the `for attempt := 1; attempt <= maxAttempts` loop of
`retry.DoWithContext`, returning the number of operation invocations
together with the Go return value (`none` = nil error).  `left + 1` is the
number of loop iterations still allowed (so `left = 0` means the current
attempt is the last one: the code breaks instead of sleeping, and the
loop exit returns the exhaustion wrap). -/
def doAux (env : RetryEnv) (maxA : Nat) :
    Nat → Nat → Err → Nat → Nat × Option Err
  | 0, _, lastErr, calls => (calls, some (Err.exhausted maxA lastErr))
  | left + 1, attempt, lastErr, calls =>
    if env.ctxAtStart attempt then (calls, some Err.ctxCanceled)
    else
      match env.op attempt with
      | none => (calls + 1, none)
      | some e =>
        if isNonRetriableApp e then (calls + 1, some e)
        else if left = 0 then (calls + 1, some (Err.exhausted maxA e))
        else if env.ctxInSleep attempt then (calls + 1, some Err.ctxCanceled)
        else doAux env maxA left (attempt + 1) e (calls + 1)

/-- `retry.DoWithContext ctx operation config` (only the attempt bound of
the config influences control flow; the delay arithmetic never does). -/
def doWithContext (env : RetryEnv) (maxA : Nat) : Nat × Option Err :=
  doAux env maxA maxA 1 Err.nilErr 0

/-- The environment seen under `context.Background()`: the context is
never cancelled. -/
def noCancelEnv (op : Nat → Option Err) : RetryEnv :=
  { op := op, ctxAtStart := fun _ => false, ctxInSleep := fun _ => false }

/-- `retry.Do`: delegates to `DoWithContext` with `context.Background()`,
which is never cancelled. -/
def retryDo (op : Nat → Option Err) (maxA : Nat) : Nat × Option Err :=
  doWithContext (noCancelEnv op) maxA

/-- The call counter of `doAux` never decreases. -/
theorem doAux_calls_le (env : RetryEnv) (maxA : Nat) :
    ∀ fuel attempt (lastErr : Err) calls,
      calls ≤ (doAux env maxA fuel attempt lastErr calls).1 := by
  intro fuel
  induction fuel with
  | zero => intro attempt lastErr calls; simp [doAux]
  | succ left ih =>
    intro attempt lastErr calls
    simp only [doAux]
    by_cases hs : env.ctxAtStart attempt
    · simp [hs]
    · simp only [hs, if_false]
      cases hop : env.op attempt with
      | none => simp
      | some e =>
        by_cases hn : isNonRetriableApp e
        · simp [hn]
        · simp only [hn, if_false]
          by_cases hl : left = 0
          · simp [hl]
          · simp only [hl, if_false]
            by_cases hc : env.ctxInSleep attempt
            · simp [hc]
            · simp only [hc, if_false]
              exact Nat.le_trans (Nat.le_succ calls) (ih (attempt + 1) e (calls + 1))

/-- If fuel remains and the context is live at the start of the attempt,
the operation is invoked at least once more. -/
theorem doAux_calls_ge_one (env : RetryEnv) (maxA : Nat)
    (left attempt : Nat) (lastErr : Err) (calls : Nat)
    (hs : env.ctxAtStart attempt = false) :
    calls + 1 ≤ (doAux env maxA (left + 1) attempt lastErr calls).1 := by
  simp only [doAux, hs, Bool.false_eq_true, if_false]
  cases hop : env.op attempt with
  | none => simp
  | some e =>
    by_cases hn : isNonRetriableApp e
    · simp [hn]
    · simp only [hn, if_false]
      by_cases hl : left = 0
      · simp [hl]
      · simp only [hl, if_false]
        by_cases hc : env.ctxInSleep attempt
        · simp [hc]
        · simp only [hc, if_false]
          exact doAux_calls_le env maxA left (attempt + 1) e (calls + 1)

/-- A Transient error is never rejected by the executor's retriability check. -/
theorem isTransient_not_nonRetriable (e : Err) (h : isTransient e = true) :
    isNonRetriableApp e = false := by
  cases e <;> simp_all [isTransient, isNonRetriableApp]

/-- Unfolding one attempt of the loop when the operation fails with a
retriable error, further attempts remain and no cancellation fires. -/
theorem doAux_step (env : RetryEnv) (maxA left attempt : Nat)
    (lastErr : Err) (calls : Nat) (e : Err)
    (hs : env.ctxAtStart attempt = false)
    (hop : env.op attempt = some e)
    (hn : isNonRetriableApp e = false)
    (hl : left ≠ 0)
    (hc : env.ctxInSleep attempt = false) :
    doAux env maxA (left + 1) attempt lastErr calls =
      doAux env maxA left (attempt + 1) e (calls + 1) := by
  simp only [doAux, hs, Bool.false_eq_true, if_false, hop, hn, hl, hc, if_neg]

/-- If every invocation fails with a Transient error and the context never
cancels, the loop consumes all its fuel and exits with the exhaustion
wrap around the final attempt's error. -/
theorem doAux_all_transient (env : RetryEnv) (maxA : Nat)
    (hop : ∀ k, ∃ e, env.op k = some e ∧ isTransient e = true)
    (hstart : ∀ k, env.ctxAtStart k = false)
    (hsleep : ∀ k, env.ctxInSleep k = false) :
    ∀ (l a : Nat) (lastErr : Err) (calls : Nat),
      ∃ e, env.op (a + l) = some e ∧
        doAux env maxA (l + 1) a lastErr calls =
          (calls + l + 1, some (Err.exhausted maxA e)) := by
  intro l
  induction l with
  | zero =>
    intro a lastErr calls
    obtain ⟨e, he, ht⟩ := hop a
    refine ⟨e, by simpa using he, ?_⟩
    simp only [doAux, hstart a, Bool.false_eq_true, if_false, he,
      isTransient_not_nonRetriable e ht, if_true]
  | succ l ih =>
    intro a lastErr calls
    obtain ⟨e, he, ht⟩ := hop a
    obtain ⟨e2, he2, hrun⟩ := ih (a + 1) e (calls + 1)
    refine ⟨e2, ?_, ?_⟩
    · have : a + 1 + l = a + (l + 1) := by omega
      rwa [this] at he2
    · rw [doAux_step env maxA (l + 1) a lastErr calls e (hstart a) he
        (isTransient_not_nonRetriable e ht) (Nat.succ_ne_zero l) (hsleep a), hrun]
      congr 1
      omega

/-- C2: an operation failing with a Transient error on every invocation
under `maxAttempts = N ≥ 1` is invoked exactly N times and the run ends
with the retry-exhaustion wrap around the final attempt's error. -/
theorem retry_exhausts_after_exactly_maxAttempts
    (op : Nat → Option Err) (maxA : Nat) (hmax : 1 ≤ maxA)
    (hop : ∀ k, ∃ e, op k = some e ∧ isTransient e = true) :
    ∃ e, op maxA = some e ∧
      retryDo op maxA = (maxA, some (Err.exhausted maxA e)) := by
  obtain ⟨m, rfl⟩ : ∃ m, maxA = m + 1 := ⟨maxA - 1, by omega⟩
  obtain ⟨e, he, hrun⟩ :=
    doAux_all_transient (noCancelEnv op) (m + 1) hop (fun _ => rfl)
      (fun _ => rfl) m 1 Err.nilErr 0
  refine ⟨e, ?_, ?_⟩
  · have : 1 + m = m + 1 := by omega
    rwa [this] at he
  · simpa [retryDo, doWithContext, noCancelEnv] using hrun

/-- Witness for C2: always-Transient failure with `maxAttempts = 3` gives
exactly 3 invocations and an exhaustion error wrapping the last error. -/
theorem retry_exhausts_after_exactly_maxAttempts_witness :
    ∃ e, (fun _ : Nat => some (errTemporary Err.nilErr)) 3 = some e ∧
      retryDo (fun _ => some (errTemporary Err.nilErr)) 3 =
        (3, some (Err.exhausted 3 e)) :=
  retry_exhausts_after_exactly_maxAttempts
    (fun _ => some (errTemporary Err.nilErr)) 3 (by decide)
    (fun _ => ⟨errTemporary Err.nilErr, rfl, rfl⟩)

/-- If the first attempts fail with Transient errors, no cancellation fires
before the backoff sleep following attempt `a + d`, and the cancellation
signal fires during that sleep, the loop stops there and returns the
context's cancellation error, with no further operation invocation. -/
theorem doAux_cancel_in_sleep (env : RetryEnv) (maxA : Nat) :
    ∀ (d a l : Nat) (lastErr : Err) (calls : Nat),
      d + 1 ≤ l →
      (∀ k, a ≤ k → k ≤ a + d →
        (∃ e, env.op k = some e ∧ isTransient e = true) ∧ env.ctxAtStart k = false) →
      (∀ k, a ≤ k → k < a + d → env.ctxInSleep k = false) →
      env.ctxInSleep (a + d) = true →
      doAux env maxA (l + 1) a lastErr calls = (calls + d + 1, some Err.ctxCanceled) := by
  intro d
  induction d with
  | zero =>
    intro a l lastErr calls _ hops _ hfire
    obtain ⟨⟨e, he, ht⟩, hstart⟩ := hops a (Nat.le_refl a) (Nat.le_add_right a 0)
    simp only [doAux, hstart, Bool.false_eq_true, if_false, he,
      isTransient_not_nonRetriable e ht]
    have hfire' : env.ctxInSleep a = true := by simpa using hfire
    by_cases hl : l = 0
    · omega
    · simp [hl, hfire']
  | succ d ih =>
    intro a l lastErr calls hdl hops hsleep hfire
    obtain ⟨l', rfl⟩ : ∃ l', l = l' + 1 := ⟨l - 1, by omega⟩
    obtain ⟨⟨e, he, ht⟩, hstart⟩ := hops a (Nat.le_refl a) (Nat.le_add_right a _)
    rw [doAux_step env maxA (l' + 1) a lastErr calls e hstart he
      (isTransient_not_nonRetriable e ht) (Nat.succ_ne_zero l')
      (hsleep a (Nat.le_refl a) (by omega))]
    have hrun := ih (a + 1) l' e (calls + 1) (by omega)
      (fun k hk1 hk2 => hops k (by omega) (by omega))
      (fun k hk1 hk2 => hsleep k (by omega) (by omega))
      (by have : a + 1 + d = a + (d + 1) := by omega
          rw [this]; exact hfire)
    rw [hrun]
    congr 1
    omega

/-- C9: when the cancellation signal fires during the backoff sleep after
attempt n (with attempts remaining), the executor returns the context's
cancellation error, the operation is not invoked again (exactly n
invocations happen), and that error is distinct from every
retry-exhaustion error. -/
theorem cancellation_aborts_sleep_and_no_new_attempt
    (env : RetryEnv) (maxA n : Nat) (h1 : 1 ≤ n) (h2 : n < maxA)
    (hops : ∀ k, 1 ≤ k → k ≤ n →
      (∃ e, env.op k = some e ∧ isTransient e = true) ∧ env.ctxAtStart k = false)
    (hsleep : ∀ k, 1 ≤ k → k < n → env.ctxInSleep k = false)
    (hfire : env.ctxInSleep n = true) :
    doWithContext env maxA = (n, some Err.ctxCanceled) ∧
      ∀ (a : Nat) (le : Err), Err.ctxCanceled ≠ Err.exhausted a le := by
  constructor
  · obtain ⟨l, rfl⟩ : ∃ l, maxA = l + 1 := ⟨maxA - 1, by omega⟩
    have hrun := doAux_cancel_in_sleep env (l + 1) (n - 1) 1 l Err.nilErr 0
      (by omega)
      (fun k hk1 hk2 => hops k hk1 (by omega))
      (fun k hk1 hk2 => hsleep k hk1 (by omega))
      (by have : 1 + (n - 1) = n := by omega
          rw [this]; exact hfire)
    unfold doWithContext
    rw [hrun]
    congr 1
    omega
  · intro a le h
    cases h

/-- Witness for C9: with Transient failures, `maxAttempts = 5` and the
cancellation signal firing during the sleep after attempt 2, the run
returns the cancellation error after exactly 2 invocations. -/
theorem cancellation_aborts_sleep_and_no_new_attempt_witness :
    doWithContext
        { op := fun _ => some (errTemporary Err.nilErr)
        , ctxAtStart := fun _ => false
        , ctxInSleep := fun k => decide (k = 2) } 5 =
      (2, some Err.ctxCanceled) ∧
      ∀ (a : Nat) (le : Err), Err.ctxCanceled ≠ Err.exhausted a le :=
  cancellation_aborts_sleep_and_no_new_attempt
    { op := fun _ => some (errTemporary Err.nilErr)
    , ctxAtStart := fun _ => false
    , ctxInSleep := fun k => decide (k = 2) } 5 2 (by decide) (by decide)
    (fun k _ _ => ⟨⟨errTemporary Err.nilErr, rfl, rfl⟩, rfl⟩)
    (fun k hk1 hk2 => by
      have : k = 1 := by omega
      subst this
      rfl)
    (by rfl)

/-- The error mapping of the retry closures inside
`youtube.FetchChannelVideos`: a `*googleapi.Error` with status 429 or 5xx
becomes `errors.Temporary` (retriable), any other `*googleapi.Error`
becomes `errors.API` (non-retriable), and any other error is returned
unchanged. -/
def classifyApiError : Err → Err
  | Err.googleapi code =>
    if code = 429 ∨ (500 ≤ code ∧ code < 600) then
      errTemporary (Err.googleapi code)
    else errAPI (Err.googleapi code)
  | e => e

/-- The operation actually handed to `retry.Do` by `FetchChannelVideos`:
the raw outcome of the n-th API call, with its error classified. -/
def classifiedOp (raw : Nat → Option Err) : Nat → Option Err :=
  fun n =>
    match raw n with
    | none => none
    | some e => some (classifyApiError e)

/-- Unfolding one attempt of the loop when the operation fails with an
`AppError` whose Retriable flag is false: return it immediately. -/
theorem doAux_permanent_first (env : RetryEnv) (maxA left attempt : Nat)
    (lastErr : Err) (calls : Nat) (e : Err)
    (hs : env.ctxAtStart attempt = false)
    (hop : env.op attempt = some e)
    (hn : isNonRetriableApp e = true) :
    doAux env maxA (left + 1) attempt lastErr calls = (calls + 1, some e) := by
  simp only [doAux, hs, Bool.false_eq_true, if_false, hop, hn, if_true]

/-- C3: inside `FetchChannelVideos`, a structured API error with status
429 or 5xx is classified Transient and the executor starts a second
attempt; a 4xx status other than 429 is classified Permanent and returned
after exactly one attempt; an error without a recognizable status code is
passed through unclassified and the executor starts a second attempt. -/
theorem fetch_error_classification
    (raw : Nat → Option Err) (maxA : Nat) (c : Int) (s : String)
    (hm : 2 ≤ maxA) :
    (400 ≤ c → c < 500 → c ≠ 429 →
      raw 1 = some (Err.googleapi c) →
      retryDo (classifiedOp raw) maxA = (1, some (errAPI (Err.googleapi c))))
    ∧ ((c = 429 ∨ (500 ≤ c ∧ c < 600)) →
      isTransient (classifyApiError (Err.googleapi c)) = true ∧
      (raw 1 = some (Err.googleapi c) → 2 ≤ (retryDo (classifiedOp raw) maxA).1))
    ∧ (classifyApiError (Err.other s) = Err.other s ∧
      (raw 1 = some (Err.other s) → 2 ≤ (retryDo (classifiedOp raw) maxA).1)) := by
  obtain ⟨l, rfl⟩ : ∃ l, maxA = l + 2 := ⟨maxA - 2, by omega⟩
  refine ⟨?_, ?_, ?_⟩
  · intro h4 h5 h6 hr
    have hcls : classifyApiError (Err.googleapi c) = errAPI (Err.googleapi c) := by
      simp only [classifyApiError]
      rw [if_neg (by omega : ¬(c = 429 ∨ (500 ≤ c ∧ c < 600)))]
    have hop : classifiedOp raw 1 = some (errAPI (Err.googleapi c)) := by
      simp only [classifiedOp, hr, hcls]
    exact doAux_permanent_first (noCancelEnv (classifiedOp raw))
      (l + 2) (l + 1) 1 Err.nilErr 0 (errAPI (Err.googleapi c)) rfl hop rfl
  · intro hc
    have hcls : classifyApiError (Err.googleapi c) = errTemporary (Err.googleapi c) := by
      simp only [classifyApiError]
      rw [if_pos hc]
    refine ⟨by rw [hcls]; rfl, ?_⟩
    intro hr
    have hop : classifiedOp raw 1 = some (errTemporary (Err.googleapi c)) := by
      simp only [classifiedOp, hr, hcls]
    have heq :
        doAux (noCancelEnv (classifiedOp raw)) (l + 2) (l + 2) 1 Err.nilErr 0 =
        doAux (noCancelEnv (classifiedOp raw)) (l + 2) (l + 1) 2
          (errTemporary (Err.googleapi c)) 1 :=
      doAux_step _ (l + 2) (l + 1) 1 Err.nilErr 0 _ rfl hop rfl
        (Nat.succ_ne_zero l) rfl
    show 2 ≤ (doAux (noCancelEnv (classifiedOp raw)) (l + 2) (l + 2) 1 Err.nilErr 0).1
    rw [heq]
    exact doAux_calls_ge_one _ (l + 2) l 2 _ 1 rfl
  · refine ⟨rfl, ?_⟩
    intro hr
    have hop : classifiedOp raw 1 = some (Err.other s) := by
      simp only [classifiedOp, hr, classifyApiError]
    have heq :
        doAux (noCancelEnv (classifiedOp raw)) (l + 2) (l + 2) 1 Err.nilErr 0 =
        doAux (noCancelEnv (classifiedOp raw)) (l + 2) (l + 1) 2 (Err.other s) 1 :=
      doAux_step _ (l + 2) (l + 1) 1 Err.nilErr 0 _ rfl hop rfl
        (Nat.succ_ne_zero l) rfl
    show 2 ≤ (doAux (noCancelEnv (classifiedOp raw)) (l + 2) (l + 2) 1 Err.nilErr 0).1
    rw [heq]
    exact doAux_calls_ge_one _ (l + 2) l 2 _ 1 rfl

/-- Witness for C3: under the default five-attempt config, a 404 error is
returned after one attempt, while a 503 error and a status-less error
both lead to a second attempt. -/
theorem fetch_error_classification_witness :
    retryDo (classifiedOp (fun _ => some (Err.googleapi 404))) 5 =
      (1, some (errAPI (Err.googleapi 404)))
    ∧ 2 ≤ (retryDo (classifiedOp (fun _ => some (Err.googleapi 503))) 5).1
    ∧ 2 ≤ (retryDo (classifiedOp (fun _ => some (Err.other "eof"))) 5).1 :=
  ⟨(fetch_error_classification (fun _ => some (Err.googleapi 404)) 5 404 "eof"
      (by decide)).1 (by decide) (by decide) (by decide) rfl,
   ((fetch_error_classification (fun _ => some (Err.googleapi 503)) 5 503 "eof"
      (by decide)).2.1 (by decide)).2 rfl,
   (fetch_error_classification (fun _ => some (Err.other "eof")) 5 0 "eof"
      (by decide)).2.2.2 rfl⟩

/-- Go's conversion of a float64 to `time.Duration` (an int64): the
fractional part is discarded, truncating toward zero.  (Faithful while
the truncated value fits in int64; an out-of-range Go float-to-int
conversion is implementation-dependent, and in `CalculateBackoff` it can
only matter on inputs whose int64 product below already overflows.) -/
def ratTrunc (q : Rat) : Int :=
  if 0 ≤ q then ⌊q⌋ else -⌊-q⌋

/-- Reduction of an integer into int64 range: Go's signed arithmetic on
`time.Duration` values is two's-complement and wraps modulo 2^64. -/
def wrap64 (x : Int) : Int :=
  (x + 9223372036854775808) % 18446744073709551616 - 9223372036854775808

/-- `retry.CalculateBackoff`: for `attempt <= 0` return `initialDelay`
unchanged; otherwise scale `initialDelay` by
`time.Duration(math.Pow(multiplier, attempt-1))` — the power truncated to
an integer — with the int64 product wrapping on overflow, and cap the
result at `maxDelay` (from above only). -/
def CalculateBackoff (attempt : Int) (config : RetryConfig) : Int :=
  if attempt ≤ 0 then config.initialDelay
  else
    let delay :=
      wrap64 (config.initialDelay * ratTrunc (config.multiplier ^ (attempt - 1).toNat))
    if delay > config.maxDelay then config.maxDelay else delay

/-- C4 fails as stated: with `initialDelay = 2 > maxDelay = 1` the first
attempt's delay is capped at `maxDelay`, so `delay(1) ≠ initialDelay` and
`attempt ≤ 0` (which returns `initialDelay` uncapped) is not treated as
`attempt = 1`; with `multiplier = 3/2` the power is truncated to an
integer before scaling, so `delay(2) = 10 ≠ min(10 * 3/2, 10^6) = 15`;
and under the default config the int64 product overflows at attempt 35,
returning a negative uncapped delay below the attempt-34 delay, which
refutes both the min formula and monotonicity. -/
theorem calculateBackoff_counterexample :
    CalculateBackoff 1 { maxAttempts := 5, initialDelay := 2, maxDelay := 1, multiplier := 2 } = 1
    ∧ (1 : Int) ≠ 2
    ∧ CalculateBackoff 0 { maxAttempts := 5, initialDelay := 2, maxDelay := 1, multiplier := 2 } = 2
    ∧ CalculateBackoff 2 { maxAttempts := 5, initialDelay := 10, maxDelay := 1000000, multiplier := 3 / 2 } = 10
    ∧ (10 : Int) ≠ 15
    ∧ CalculateBackoff 34 DefaultConfig = 30000000000
    ∧ CalculateBackoff 35 DefaultConfig = -1266874889709551616
    ∧ CalculateBackoff 35 DefaultConfig < CalculateBackoff 34 DefaultConfig := by
  refine ⟨?_, by decide, ?_, ?_, by decide, ?_, ?_, ?_⟩ <;>
    norm_num [CalculateBackoff, ratTrunc, wrap64, DefaultConfig,
      show Int.toNat 33 = 33 from rfl, show Int.toNat 34 = 34 from rfl]

/-- C4 amended: `delay(attempt ≤ 0) = initialDelay` (uncapped); the int64
product `initialDelay * trunc(multiplier^(n-1))` wraps modulo 2^64 and
the `maxDelay` cap is one-sided, so for every `n ≥ 1` the result is at
most `maxDelay` but an overflowed product comes back as a negative delay
returned uncapped; whenever the product fits in int64 (below 2^63),
`delay(n) = min(initialDelay * trunc(multiplier^(n-1)), maxDelay)` — in
particular `delay(1) = min(initialDelay, maxDelay)` — and for a config
with `initialDelay ≥ 0` and `multiplier ≥ 1` the delay is non-decreasing
over the attempts whose product fits in int64. -/
theorem calculateBackoff_amended (c : RetryConfig)
    (h1 : 0 ≤ c.initialDelay) (h3 : 1 ≤ c.multiplier) :
    (∀ a : Int, a ≤ 0 → CalculateBackoff a c = c.initialDelay)
    ∧ (∀ a : Int, 1 ≤ a →
        c.initialDelay * ratTrunc (c.multiplier ^ (a - 1).toNat) < 9223372036854775808 →
        CalculateBackoff a c =
          min (c.initialDelay * ratTrunc (c.multiplier ^ (a - 1).toNat)) c.maxDelay)
    ∧ (∀ a : Int, 1 ≤ a → CalculateBackoff a c ≤ c.maxDelay)
    ∧ (∀ a b : Int, 1 ≤ a → a ≤ b →
        c.initialDelay * ratTrunc (c.multiplier ^ (b - 1).toNat) < 9223372036854775808 →
        CalculateBackoff a c ≤ CalculateBackoff b c) := by
  have hpow : ∀ n : Nat, (1 : Rat) ≤ c.multiplier ^ n := fun n => one_le_pow₀ h3
  have htrunc : ∀ n : Nat, ratTrunc (c.multiplier ^ n) = ⌊c.multiplier ^ n⌋ := by
    intro n
    rw [ratTrunc, if_pos (by linarith [hpow n])]
  have htpos : ∀ n : Nat, 1 ≤ ratTrunc (c.multiplier ^ n) := by
    intro n
    rw [htrunc]
    exact Int.le_floor.mpr (by simpa using hpow n)
  have hprod : ∀ n : Nat, 0 ≤ c.initialDelay * ratTrunc (c.multiplier ^ n) :=
    fun n => mul_nonneg h1 (le_trans zero_le_one (htpos n))
  have hwrap : ∀ x : Int, 0 ≤ x → x < 9223372036854775808 → wrap64 x = x := by
    intro x hx0 hx1
    rw [wrap64, Int.emod_eq_of_lt (by omega) (by omega)]
    omega
  have hform : ∀ a : Int, 1 ≤ a →
      c.initialDelay * ratTrunc (c.multiplier ^ (a - 1).toNat) < 9223372036854775808 →
      CalculateBackoff a c =
        min (c.initialDelay * ratTrunc (c.multiplier ^ (a - 1).toNat)) c.maxDelay := by
    intro a ha hlt
    simp only [CalculateBackoff]
    rw [if_neg (by omega), hwrap _ (hprod _) hlt]
    rcases le_or_lt (c.initialDelay * ratTrunc (c.multiplier ^ (a - 1).toNat)) c.maxDelay with h | h
    · rw [if_neg (by omega), min_eq_left h]
    · rw [if_pos (by omega), min_eq_right (le_of_lt h)]
  refine ⟨?_, hform, ?_, ?_⟩
  · intro a ha
    simp only [CalculateBackoff]
    rw [if_pos ha]
  · intro a ha
    simp only [CalculateBackoff]
    rw [if_neg (by omega)]
    rcases le_or_lt
      (wrap64 (c.initialDelay * ratTrunc (c.multiplier ^ (a - 1).toNat)))
      c.maxDelay with h | h
    · rw [if_neg (by omega)]
      exact h
    · rw [if_pos (by omega)]
  · intro a b ha hab hltb
    have hmono : ratTrunc (c.multiplier ^ (a - 1).toNat) ≤
        ratTrunc (c.multiplier ^ (b - 1).toNat) := by
      rw [htrunc, htrunc]
      exact Int.floor_le_floor (pow_le_pow_right₀ h3 (by omega))
    have hpa : c.initialDelay * ratTrunc (c.multiplier ^ (a - 1).toNat) ≤
        c.initialDelay * ratTrunc (c.multiplier ^ (b - 1).toNat) :=
      mul_le_mul_of_nonneg_left hmono h1
    rw [hform a ha (by omega), hform b (by omega) hltb]
    exact min_le_min hpa (le_refl _)

/-- Witness for C4 amended, at the default retry config. -/
theorem calculateBackoff_amended_witness :
    CalculateBackoff 0 DefaultConfig = DefaultConfig.initialDelay
    ∧ CalculateBackoff 1 DefaultConfig ≤ DefaultConfig.maxDelay
    ∧ CalculateBackoff 2 DefaultConfig ≤ CalculateBackoff 6 DefaultConfig :=
  ⟨(calculateBackoff_amended DefaultConfig (by decide)
      (by norm_num [DefaultConfig])).1 0 (by decide),
   (calculateBackoff_amended DefaultConfig (by decide)
      (by norm_num [DefaultConfig])).2.2.1 1 (by decide),
   (calculateBackoff_amended DefaultConfig (by decide)
      (by norm_num [DefaultConfig])).2.2.2 2 6 (by decide) (by decide)
      (by norm_num [DefaultConfig, ratTrunc, show Int.toNat 5 = 5 from rfl])⟩

/-- One successful `PlaylistItems.List` page response: the video ids of
its items and the `NextPageToken` field (empty string = no further page). -/
structure Page where
  items : List String
  nextToken : String
  deriving DecidableEq, Repr

/-- The pagination loop of `youtube.FetchChannelVideos` (lines 66-100):
fetch page k, append its video ids, then break when the continuation
token is empty or at least `maxResults` ids have been collected.  The
upstream is modelled as the sequence of successful page responses; `fuel`
bounds the number of iterations we are willing to unfold (the Go loop
itself has no such bound, so `none` means the loop is still running). -/
def paginateAux (u : Nat → Page) (maxResults : Int) :
    Nat → List String → Nat → Option (List String × Nat)
  | 0, _, _ => none
  | fuel + 1, acc, k =>
    if (u k).nextToken = "" ∨ (((acc ++ (u k).items).length : Int) ≥ maxResults) then
      some (acc ++ (u k).items, k)
    else paginateAux u maxResults fuel (acc ++ (u k).items) (k + 1)

/-- The pagination loop started on an empty accumulator at page 0. -/
def paginate (u : Nat → Page) (maxResults : Int) (fuel : Nat) :
    Option (List String × Nat) :=
  paginateAux u maxResults fuel [] 0

/-- The ids contributed by the first `n` pages, in order. -/
def collectedIDs (u : Nat → Page) (n : Nat) : List String :=
  (List.range n).flatMap fun k => (u k).items

theorem collectedIDs_zero (u : Nat → Page) : collectedIDs u 0 = [] := rfl

theorem collectedIDs_succ (u : Nat → Page) (n : Nat) :
    collectedIDs u (n + 1) = collectedIDs u n ++ (u n).items := by
  unfold collectedIDs
  rw [List.range_succ, List.flatMap_append]
  simp

/-- Soundness of the pagination loop: a terminating run consumed pages
`k0 .. k`, returned exactly their concatenated ids, stopped at the first
page satisfying the exit condition, and every earlier page had a
non-empty token and a running count below `maxResults`. -/
theorem paginateAux_sound (u : Nat → Page) (m : Int) :
    ∀ (fuel k0 : Nat) (ids : List String) (k : Nat),
      paginateAux u m fuel (collectedIDs u k0) k0 = some (ids, k) →
      k0 ≤ k ∧ ids = collectedIDs u (k + 1)
      ∧ ((u k).nextToken = "" ∨ (ids.length : Int) ≥ m)
      ∧ (∀ j, k0 ≤ j → j < k →
          (u j).nextToken ≠ "" ∧ ((collectedIDs u (j + 1)).length : Int) < m) := by
  intro fuel
  induction fuel with
  | zero => intro k0 ids k h; simp [paginateAux] at h
  | succ fuel ih =>
    intro k0 ids k h
    rw [paginateAux, ← collectedIDs_succ] at h
    by_cases hcond : (u k0).nextToken = "" ∨ (((collectedIDs u (k0 + 1)).length : Int) ≥ m)
    · rw [if_pos hcond] at h
      obtain ⟨hids, hk⟩ : collectedIDs u (k0 + 1) = ids ∧ k0 = k := by
        constructor <;> [skip; skip] <;> cases h <;> rfl
      subst hk
      exact ⟨Nat.le_refl k0, hids.symm, by rw [← hids]; exact hcond,
        fun j hj1 hj2 => absurd hj1 (by omega)⟩
    · rw [if_neg hcond] at h
      obtain ⟨h1, h2, h3, h4⟩ := ih (k0 + 1) ids k h
      push_neg at hcond
      refine ⟨by omega, h2, h3, ?_⟩
      intro j hj1 hj2
      rcases Nat.eq_or_lt_of_le hj1 with rfl | hlt
      · exact ⟨hcond.1, hcond.2⟩
      · exact h4 j hlt hj2

/-- C5 amended: the pagination loop stops requesting further pages exactly
when the upstream returns an empty continuation token or at least
`maxResults` ids have been collected, whichever comes first, and the id
sequence it proceeds with is the concatenation of all consumed pages; its
length can exceed `maxResults` and is bounded only by `maxResults - 1`
plus the size of the final consumed page. -/
theorem pagination_stopping_rule (u : Nat → Page) (m : Int) (fuel : Nat)
    (ids : List String) (k : Nat)
    (h : paginate u m fuel = some (ids, k)) :
    ids = collectedIDs u (k + 1)
    ∧ ((u k).nextToken = "" ∨ (ids.length : Int) ≥ m)
    ∧ (∀ j, j < k →
        (u j).nextToken ≠ "" ∧ ((collectedIDs u (j + 1)).length : Int) < m)
    ∧ (1 ≤ m → (ids.length : Int) < m + ((u k).items.length : Int)) := by
  obtain ⟨_, h2, h3, h4⟩ := paginateAux_sound u m fuel 0 ids k h
  refine ⟨h2, h3, fun j hj => h4 j (Nat.zero_le j) hj, ?_⟩
  intro hm
  have hlen : ids.length = (collectedIDs u k).length + (u k).items.length := by
    rw [h2, collectedIDs_succ, List.length_append]
  have hklen : ((collectedIDs u k).length : Int) < m := by
    cases k with
    | zero => simpa [collectedIDs_zero] using hm
    | succ j => exact (h4 j (Nat.zero_le j) (Nat.lt_succ_self j)).2
  omega

/-- C5 fails as stated: with `maxResults = 3` and pages of two ids each,
the loop collects 4 ids — more than `maxResults` — because it only checks
the bound between pages and never truncates. -/
theorem pagination_exceeds_maxResults_counterexample :
    paginate
      (fun n => if n = 0 then { items := ["a", "b"], nextToken := "t" }
                else { items := ["c", "d"], nextToken := "" }) 3 10 =
      some (["a", "b", "c", "d"], 1)
    ∧ ((["a", "b", "c", "d"] : List String).length : Int) > 3 := by
  exact ⟨by decide, by decide⟩

/-- Witness for C5 amended: a single page with one id and no continuation
token under `maxResults = 5`. -/
theorem pagination_stopping_rule_witness :
    ["a"] = collectedIDs (fun _ => Page.mk ["a"] "") (0 + 1)
    ∧ ((Page.mk ["a"] "").nextToken = "" ∨ ((["a"] : List String).length : Int) ≥ 5)
    ∧ (∀ j, j < 0 →
        (Page.mk ["a"] "").nextToken ≠ "" ∧
          ((collectedIDs (fun _ => Page.mk ["a"] "") (j + 1)).length : Int) < 5)
    ∧ (1 ≤ (5 : Int) →
        ((["a"] : List String).length : Int) <
          5 + (((Page.mk ["a"] "").items.length : Int))) :=
  pagination_stopping_rule (fun _ => Page.mk ["a"] "") 5 1 ["a"] 0 rfl

/-- C6: the claim matches the spec's stated requirement, but the code has
no page-count ceiling: against an upstream whose continuation token is
never empty and whose pages contribute no ids, the pagination loop never
exits by its own conditions — no amount of unfolding reaches a result. -/
theorem pagination_no_ceiling_nontermination :
    ∀ fuel : Nat,
      paginate (fun _ => { items := [], nextToken := "t" }) 1 fuel = none := by
  have key : ∀ (fuel : Nat) (acc : List String) (k : Nat), ((acc.length : Int) < 1) →
      paginateAux (fun _ => { items := [], nextToken := "t" }) 1 fuel acc k = none := by
    intro fuel
    induction fuel with
    | zero => intro acc k _; rfl
    | succ fuel ih =>
      intro acc k hlen
      rw [paginateAux, if_neg, List.append_nil]
      · exact ih acc (k + 1) hlen
      · push_neg
        exact ⟨by decide, by simpa using hlen⟩
  intro fuel
  exact key fuel [] 0 (by decide)

/-- The digit characters of a Go duration number. -/
def digitsToNat (ds : List Char) : Nat :=
  ds.foldl (fun acc c => acc * 10 + (c.toNat - 48)) 0

/-- Nanoseconds per Go duration unit letter, for the units that the ISO
rewrite below can produce. -/
def unitNanos : Char → Option Int
  | 'h' => some 3600000000000
  | 'm' => some 60000000000
  | 's' => some 1000000000
  | _ => none

/-- Go standard library `time.ParseDuration`, modelled on the fragment the
ISO rewrite produces — a non-empty sequence of integer-number/unit pairs
with units among h, m, s; anything else is a parse error.  The
accumulator is in nanoseconds. -/
def parseGoDurationAux : Nat → List Char → Int → Option Int
  | _, [], acc => some acc
  | 0, _ :: _, _ => none
  | fuel + 1, cs, acc =>
    let ds := cs.takeWhile Char.isDigit
    let rest := cs.dropWhile Char.isDigit
    if ds = [] then none
    else
      match rest with
      | [] => none
      | unit :: rest2 =>
        match unitNanos unit with
        | none => none
        | some w => parseGoDurationAux fuel rest2 (acc + (digitsToNat ds : Int) * w)

/-- Go `time.ParseDuration` (the fragment above); the empty string is a
parse error. -/
def parseGoDuration (s : String) : Option Int :=
  if s.toList = [] then none else parseGoDurationAux s.toList.length s.toList 0

/-- `strings.TrimPrefix(isoDuration, "P")`. -/
def trimPrefixP : List Char → List Char
  | 'P' :: rest => rest
  | cs => cs

/-- The `strings.NewReplacer("T", "", "H", "h", "M", "m", "S", "s")`
rewrite applied character by character. -/
def goReplacer (cs : List Char) : List Char :=
  cs.foldr
    (fun c acc =>
      match c with
      | 'T' => acc
      | 'H' => 'h' :: acc
      | 'M' => 'm' :: acc
      | 'S' => 's' :: acc
      | c => c :: acc) []

/-- `youtube.parseISODuration`: strip the `P` prefix, rewrite the ISO unit
letters to Go's, and hand the result to `time.ParseDuration`; the result
is the duration in nanoseconds. -/
def parseISODuration (iso : String) : Option Int :=
  parseGoDuration (String.mk (goReplacer (trimPrefixP iso.toList)))

/-- The `duration_sec` field computed in `FetchChannelVideos`
(lines 143-153): `int64(duration.Seconds())`, and 0 when parsing fails. -/
def videoDurationSec (iso : String) : Int :=
  match parseISODuration iso with
  | some d => d / 1000000000
  | none => 0

/-- The `is_short` flag computed in `FetchChannelVideos` (lines 143-153):
set exactly when parsing succeeded and `duration <= 60*time.Second`. -/
def videoIsShort (iso : String) : Bool :=
  match parseISODuration iso with
  | some d => decide (d ≤ 60000000000)
  | none => false

/-- C8: whenever the raw ISO-8601 duration parses to `d` nanoseconds, the
stored duration is the whole number of seconds of `d` and the short-form
flag is set if and only if the duration is at most 60 seconds. -/
theorem duration_seconds_and_short_flag (iso : String) (d : Int)
    (h : parseISODuration iso = some d) :
    videoDurationSec iso = d / 1000000000
    ∧ (videoIsShort iso = true ↔ d ≤ 60000000000) := by
  rw [videoDurationSec, videoIsShort, h]
  simp

/-- Witness for C8: `"PT45S"` (45 seconds) yields `duration_sec = 45` and
`is_short = true`, while `"PT1M1S"` (61 seconds) yields `is_short = false`. -/
theorem duration_seconds_and_short_flag_witness :
    parseISODuration "PT45S" = some 45000000000
    ∧ videoDurationSec "PT45S" = 45
    ∧ videoIsShort "PT45S" = true
    ∧ videoIsShort "PT1M1S" = false := by
  have h := duration_seconds_and_short_flag "PT45S" 45000000000 (by decide)
  exact ⟨by decide, by rw [h.1]; decide, h.2.mpr (by decide), by decide⟩

/-- `youtube.Video` as consumed by the fetcher's record construction:
identifier, title and raw statistics (timestamps are int64 nanoseconds). -/
structure Video where
  id : String
  title : String
  views : Int
  likes : Int
  comments : Int
  publishedAt : Int
  deriving DecidableEq, Repr

/-- `storage.VideoStatsRecord` as built by
`internal/fetcher.FetchAndStore` (lines 66-79): one snapshot row,
including the `InsertID` idempotency key. -/
structure VideoStatsRecord where
  ts : Int
  snapshotDate : Int
  channelID : String
  videoID : String
  title : String
  views : Int
  likes : Int
  comments : Int
  publishedAt : Int
  insertID : String
  deriving DecidableEq, Repr

/-- The record construction of `internal/fetcher.FetchAndStore`
(lines 66-79).  `nowTS` is the `time.Now()` wall clock at transform time
(nanoseconds) and `nowDateStr` is `time.Now().Format("2006-01-02")`, the
calendar date of the run; the code builds
`InsertID = fmt.Sprintf("%s-%s", video.ID, time.Now().Format("2006-01-02"))`. -/
def buildRecord (channelID : String) (nowTS : Int) (nowDateStr : String)
    (v : Video) : VideoStatsRecord :=
  { ts := nowTS
  , snapshotDate := nowTS / 86400000000000 * 86400000000000
  , channelID := channelID
  , videoID := v.id
  , title := v.title
  , views := v.views
  , likes := v.likes
  , comments := v.comments
  , publishedAt := v.publishedAt
  , insertID := v.id ++ "-" ++ nowDateStr }

/-- Appending the same suffix to two strings is injective. -/
theorem string_append_right_cancel (a b c : String) (h : a ++ c = b ++ c) :
    a = b := by
  have hd : a.data ++ c.data = b.data ++ c.data := congrArg String.data h
  have hab := List.append_cancel_right hd
  cases a
  cases b
  exact congrArg String.mk (by simpa using hab)

/-- C7 fails as stated: the idempotency key is built from the item id and
the run date only, so records for two distinct channels sharing an item
id on the same day receive byte-identical keys — the key does not depend
on the channel id. -/
theorem insertID_ignores_channel_counterexample :
    (buildRecord "channelA" 100 "2026-10-11" (Video.mk "vid1" "t" 0 0 0 0)).insertID =
      (buildRecord "channelB" 200 "2026-10-11" (Video.mk "vid1" "t" 0 0 0 0)).insertID
    ∧ "channelA" ≠ "channelB" := by
  exact ⟨rfl, by decide⟩

/-- C7 amended: the idempotency key is a deterministic composition of the
item id and the run date only — independent of the channel id and of the
`created_at` wall clock, byte-identical across two invocations with the
same `(runDate, itemId)`, and distinct for distinct item ids on the same
day; but records for distinct channels sharing an item id collide. -/
theorem insertID_amended (ch1 ch2 : String) (t1 t2 : Int) (d : String)
    (v v1 v2 : Video) :
    (buildRecord ch1 t1 d v).insertID = (buildRecord ch2 t2 d v).insertID
    ∧ (v1.id ≠ v2.id →
        (buildRecord ch1 t1 d v1).insertID ≠ (buildRecord ch2 t2 d v2).insertID) := by
  refine ⟨rfl, ?_⟩
  intro hne heq
  apply hne
  have h1 : v1.id ++ "-" ++ d = v2.id ++ "-" ++ d := heq
  have h2 : (v1.id ++ "-") ++ d = (v2.id ++ "-") ++ d := by
    simpa [String.append_assoc] using h1
  exact string_append_right_cancel v1.id v2.id "-"
    (string_append_right_cancel (v1.id ++ "-") (v2.id ++ "-") d h2)

/-- Witness for C7 amended: same item id, different channels and wall
clocks give equal keys; different item ids give distinct keys. -/
theorem insertID_amended_witness :
    (buildRecord "a" 1 "2026-10-11" (Video.mk "u" "t" 0 0 0 0)).insertID =
      (buildRecord "b" 2 "2026-10-11" (Video.mk "u" "t" 0 0 0 0)).insertID
    ∧ (buildRecord "a" 1 "2026-10-11" (Video.mk "u" "t" 0 0 0 0)).insertID ≠
        (buildRecord "b" 2 "2026-10-11" (Video.mk "w" "t" 0 0 0 0)).insertID :=
  ⟨(insertID_amended "a" "b" 1 2 "2026-10-11" (Video.mk "u" "t" 0 0 0 0)
      (Video.mk "u" "t" 0 0 0 0) (Video.mk "w" "t" 0 0 0 0)).1,
   (insertID_amended "a" "b" 1 2 "2026-10-11" (Video.mk "u" "t" 0 0 0 0)
      (Video.mk "u" "t" 0 0 0 0) (Video.mk "w" "t" 0 0 0 0)).2 (by decide)⟩

/-- The external collaborators of `fetcher.FetchAndStore` (part of the
orchestrator embedding): per channel id, the outcome of
`ytClient.FetchChannelVideos` and of `bqWriter.InsertVideoStats` for that
channel's records. -/
structure FetchEnv where
  fetch : String → Except Err (List Video)
  insert : String → Option Err

/-- `fetcher.FetchResult`: `FailedChannels` is a Go `map[string]error`,
modelled as an association list with insert-or-replace semantics. -/
structure FetchResult where
  successfulChannels : List String
  failedChannels : List (String × Err)
  totalVideos : Nat
  deriving Repr

/-- Assignment `m[k] = v` on a Go map represented as an association list:
replace the binding if the key is present, else append it. -/
def mapSet (m : List (String × Err)) (k : String) (v : Err) :
    List (String × Err) :=
  if m.any (fun p => p.1 = k) then
    m.map (fun p => if p.1 = k then (k, v) else p)
  else m ++ [(k, v)]

/-- One iteration of the channel loop of `FetchAndStore`
(part_010 lines 123-166): fetch, transform, write; on a fetch error
record `errors.API(...)` against the channel id and continue; on an
insert error record `errors.Storage(...)`; otherwise append the channel
to the successes and add its video count. -/
def processChannel (env : FetchEnv) (r : FetchResult) (channelID : String) :
    FetchResult :=
  match env.fetch channelID with
  | Except.error e =>
    { r with failedChannels := mapSet r.failedChannels channelID (errAPI e) }
  | Except.ok videos =>
    match env.insert channelID with
    | some e =>
      { r with failedChannels := mapSet r.failedChannels channelID (errStorage e) }
    | none =>
      { r with successfulChannels := r.successfulChannels ++ [channelID]
             , totalVideos := r.totalVideos + videos.length }

/-- `fetcher.FetchAndStore` (part_010 lines 115-183): run the channel
loop and return an error exactly when the number of entries of the
`FailedChannels` map equals the number of configured channel ids
(`errors.New(ErrTypeAPI, "All channels failed to process", nil)`). -/
def fetchAndStore (env : FetchEnv) (channelIDs : List String) :
    FetchResult × Option Err :=
  let r := channelIDs.foldl (processChannel env)
    { successfulChannels := [], failedChannels := [], totalVideos := 0 }
  (r, if r.failedChannels.length = channelIDs.length then
        some (errNew ErrType.api Err.nilErr)
      else none)

/-- C10: with an empty channel list the run consults no collaborator at
all (the result is the same for every environment), and the final check
`len(FailedChannels) == len(channelIDs)` holds as `0 = 0`, so the run
returns the all-channels-failed error rather than success. -/
theorem empty_channel_list_is_total_failure :
    (∀ env env' : FetchEnv, fetchAndStore env [] = fetchAndStore env' [])
    ∧ (∀ env : FetchEnv,
        (fetchAndStore env []).2 = some (errNew ErrType.api Err.nilErr)) :=
  ⟨fun _ _ => rfl, fun _ => rfl⟩

/-- Whether the pipeline fully succeeds for a channel: the fetch returns
ok and the insert returns no error. -/
def chanOk (env : FetchEnv) (id : String) : Bool :=
  match env.fetch id with
  | Except.error _ => false
  | Except.ok _ => (env.insert id).isNone

/-- The error recorded against a failing channel. -/
def chanErr (env : FetchEnv) (id : String) : Err :=
  match env.fetch id with
  | Except.error e => errAPI e
  | Except.ok _ =>
    match env.insert id with
    | some e => errStorage e
    | none => Err.nilErr

/-- The number of videos fetched for a succeeding channel. -/
def chanVideos (env : FetchEnv) (id : String) : Nat :=
  match env.fetch id with
  | Except.ok vs => vs.length
  | Except.error _ => 0

theorem mapSet_of_not_mem (m : List (String × Err)) (k : String) (v : Err)
    (h : ∀ p ∈ m, p.1 ≠ k) : mapSet m k v = m ++ [(k, v)] := by
  rw [mapSet, if_neg]
  intro hany
  rw [List.any_eq_true] at hany
  obtain ⟨p, hp, hpk⟩ := hany
  exact h p hp (by simpa using hpk)

/-- Characterization of the channel loop on a duplicate-free id list whose
ids are not yet present in the failure map: successes are the filter of
fully-succeeding ids in order, failures are appended in order with their
recorded errors, and the video total sums the succeeding channels. -/
theorem foldl_processChannel_spec (env : FetchEnv) :
    ∀ (ids : List String) (r : FetchResult),
      ids.Nodup →
      (∀ id ∈ ids, ∀ p ∈ r.failedChannels, p.1 ≠ id) →
      ids.foldl (processChannel env) r =
        { successfulChannels := r.successfulChannels ++ ids.filter (chanOk env)
        , failedChannels := r.failedChannels ++
            (ids.filter (fun id => !chanOk env id)).map
              (fun id => (id, chanErr env id))
        , totalVideos := r.totalVideos +
            ((ids.filter (chanOk env)).map (chanVideos env)).sum } := by
  intro ids
  induction ids with
  | nil => intro r _ _; simp
  | cons id tl ih =>
    intro r hnd hdisj
    have hndtl : tl.Nodup := (List.nodup_cons.mp hnd).2
    have hid_tl : id ∉ tl := (List.nodup_cons.mp hnd).1
    rw [List.foldl_cons]
    by_cases hok : chanOk env id = true
    · have hstep : processChannel env r id =
          { successfulChannels := r.successfulChannels ++ [id]
          , failedChannels := r.failedChannels
          , totalVideos := r.totalVideos + chanVideos env id } := by
        have hok' := hok
        rw [chanOk] at hok'
        cases hfetch : env.fetch id with
        | error e => rw [hfetch] at hok'; simp at hok'
        | ok vs =>
          rw [hfetch] at hok'
          cases hins : env.insert id with
          | some e => rw [hins] at hok'; simp at hok'
          | none => simp [processChannel, hfetch, hins, chanVideos]
      have hrec := ih
        { successfulChannels := r.successfulChannels ++ [id]
        , failedChannels := r.failedChannels
        , totalVideos := r.totalVideos + chanVideos env id }
        hndtl (fun i hi p hp => hdisj i (List.mem_cons_of_mem id hi) p hp)
      rw [hstep, hrec]
      simp only [List.filter_cons, hok, if_true, Bool.not_true, Bool.false_eq_true,
        if_false, List.map_cons, List.sum_cons]
      simp [List.append_assoc, Nat.add_assoc]
    · have hokf : chanOk env id = false := by
        cases h : chanOk env id
        · rfl
        · exact absurd h hok
      have hokf' := hokf
      rw [chanOk] at hokf'
      have hnotmem : ∀ p ∈ r.failedChannels, p.1 ≠ id :=
        fun p hp => hdisj id (List.mem_cons_self id tl) p hp
      have hstep : processChannel env r id =
          { successfulChannels := r.successfulChannels
          , failedChannels := r.failedChannels ++ [(id, chanErr env id)]
          , totalVideos := r.totalVideos } := by
        cases hfetch : env.fetch id with
        | error e =>
          simp [processChannel, hfetch, chanErr,
            mapSet_of_not_mem r.failedChannels id (errAPI e) hnotmem]
        | ok vs =>
          rw [hfetch] at hokf'
          cases hins : env.insert id with
          | none => rw [hins] at hokf'; simp at hokf'
          | some e =>
            simp [processChannel, hfetch, hins, chanErr,
              mapSet_of_not_mem r.failedChannels id (errStorage e) hnotmem]
      have hdisj' : ∀ i ∈ tl, ∀ p ∈ r.failedChannels ++ [(id, chanErr env id)],
          p.1 ≠ i := by
        intro i hi p hp
        rcases List.mem_append.mp hp with hp1 | hp2
        · exact hdisj i (List.mem_cons_of_mem id hi) p hp1
        · have hpe : p = (id, chanErr env id) := by simpa using hp2
          subst hpe
          intro hcontra
          exact hid_tl (by simp only at hcontra; rw [← hcontra] at hi; exact hi)
      have hrec := ih
        { successfulChannels := r.successfulChannels
        , failedChannels := r.failedChannels ++ [(id, chanErr env id)]
        , totalVideos := r.totalVideos }
        hndtl hdisj'
      rw [hstep, hrec]
      simp only [List.filter_cons, hokf, Bool.not_false, if_true, Bool.false_eq_true,
        if_false, List.map_cons]
      simp [List.append_assoc]

/-- C1 fails as stated: `FailedChannels` is a map keyed by channel id, so
with the duplicate list `["a", "a"]` whose every attempt fails, the map
holds one entry while the list holds two ids; the final comparison
`len(FailedChannels) == len(channelIDs)` is `1 == 2`, and the run is
reported as success although every channel failed and none succeeded. -/
theorem orchestrator_duplicate_channels_counterexample :
    (fetchAndStore
      (FetchEnv.mk (fun _ => Except.error (Err.other "boom")) (fun _ => none))
      ["a", "a"]).2 = none
    ∧ (fetchAndStore
        (FetchEnv.mk (fun _ => Except.error (Err.other "boom")) (fun _ => none))
        ["a", "a"]).1.successfulChannels = []
    ∧ (fetchAndStore
        (FetchEnv.mk (fun _ => Except.error (Err.other "boom")) (fun _ => none))
        ["a", "a"]).1.failedChannels.length = 1 := by
  exact ⟨rfl, rfl, rfl⟩

/-- C1 amended: for every non-empty, duplicate-free channel list, the loop
attempts every channel (each id ends up either among the successes or
recorded with its error among the failures), a fetch failure is recorded
as an API error against its channel id while the loop continues, and the
run returns an error if and only if every channel failed; one success
makes the run a success with the failures still recorded. -/
theorem orchestrator_total_vs_partial_failure (env : FetchEnv)
    (ids : List String) (hne : ids ≠ []) (hnd : ids.Nodup) :
    ((fetchAndStore env ids).1.successfulChannels = ids.filter (chanOk env))
    ∧ (∀ id ∈ ids, chanOk env id = false →
        (id, chanErr env id) ∈ (fetchAndStore env ids).1.failedChannels)
    ∧ (∀ id ∈ ids, ∀ e, env.fetch id = Except.error e →
        (id, errAPI e) ∈ (fetchAndStore env ids).1.failedChannels)
    ∧ ((fetchAndStore env ids).2 ≠ none ↔ ∀ id ∈ ids, chanOk env id = false)
    ∧ ((∃ id ∈ ids, chanOk env id = true) → (fetchAndStore env ids).2 = none) := by
  have hchar := foldl_processChannel_spec env ids
    { successfulChannels := [], failedChannels := [], totalVideos := 0 } hnd
    (by intro i _ p hp; simp at hp)
  have hfst : (fetchAndStore env ids).1 =
      { successfulChannels := ids.filter (chanOk env)
      , failedChannels := (ids.filter (fun id => !chanOk env id)).map
          (fun id => (id, chanErr env id))
      , totalVideos := ((ids.filter (chanOk env)).map (chanVideos env)).sum } := by
    show ids.foldl (processChannel env) _ = _
    rw [hchar]
    simp
  have hsnd : (fetchAndStore env ids).2 =
      (if (ids.filter (fun id => !chanOk env id)).length = ids.length then
        some (errNew ErrType.api Err.nilErr)
      else none) := by
    show (if (ids.foldl (processChannel env) _).failedChannels.length = ids.length
        then _ else _) = _
    rw [hchar]
    simp
  have hiff : ((ids.filter (fun id => !chanOk env id)).length = ids.length) ↔
      (∀ id ∈ ids, chanOk env id = false) := by
    rw [List.filter_length_eq_length]
    constructor
    · intro h id hid
      simpa using h id hid
    · intro h id hid
      simpa using h id hid
  have hmem : ∀ id ∈ ids, chanOk env id = false →
      (id, chanErr env id) ∈ (fetchAndStore env ids).1.failedChannels := by
    intro id hid hfalse
    rw [hfst]
    exact List.mem_map.mpr ⟨id, List.mem_filter.mpr ⟨hid, by rw [hfalse]; rfl⟩, rfl⟩
  refine ⟨by rw [hfst], hmem, ?_, ?_, ?_⟩
  · intro id hid e hfetch
    have hfalse : chanOk env id = false := by rw [chanOk, hfetch]
    have := hmem id hid hfalse
    have herr : chanErr env id = errAPI e := by rw [chanErr, hfetch]
    rwa [herr] at this
  · rw [hsnd]
    by_cases hcond : (ids.filter (fun id => !chanOk env id)).length = ids.length
    · rw [if_pos hcond]
      exact ⟨fun _ => hiff.mp hcond, fun _ => by simp⟩
    · rw [if_neg hcond]
      exact ⟨fun h => absurd rfl h, fun hall => absurd (hiff.mpr hall) hcond⟩
  · rintro ⟨id, hid, hok⟩
    rw [hsnd, if_neg]
    intro hcond
    have := hiff.mp hcond id hid
    rw [hok] at this
    cases this

/-- Witness for C1 amended: three distinct channels where channel 2's
fetch fails and channels 1 and 3 succeed — the failure is recorded
against channel 2 and the run is reported as overall success. -/
theorem orchestrator_total_vs_partial_failure_witness :
    (fetchAndStore
      (FetchEnv.mk
        (fun id => if id = "c2" then Except.error (Err.other "fail") else Except.ok [])
        (fun _ => none))
      ["c1", "c2", "c3"]).1.successfulChannels = ["c1", "c3"]
    ∧ ("c2", errAPI (Err.other "fail")) ∈
        (fetchAndStore
          (FetchEnv.mk
            (fun id => if id = "c2" then Except.error (Err.other "fail") else Except.ok [])
            (fun _ => none))
          ["c1", "c2", "c3"]).1.failedChannels
    ∧ (fetchAndStore
        (FetchEnv.mk
          (fun id => if id = "c2" then Except.error (Err.other "fail") else Except.ok [])
          (fun _ => none))
        ["c1", "c2", "c3"]).2 = none := by
  have h := orchestrator_total_vs_partial_failure
    (FetchEnv.mk
      (fun id => if id = "c2" then Except.error (Err.other "fail") else Except.ok [])
      (fun _ => none))
    ["c1", "c2", "c3"] (by decide) (by decide)
  exact ⟨h.1.trans (by decide),
    h.2.2.1 "c2" (by decide) (Err.other "fail") rfl,
    h.2.2.2.2 ⟨"c1", by decide, by decide⟩⟩

end YTT
